import Mathlib

/-!
Shallow embedding of the embers observability demo (src/server.js and
src/public/flames.js) together with proofs about its load-generation policy.

JavaScript numbers are idealised as rationals, with an explicit NaN value
(`JSNum.nan`) so that arithmetic on missing request fields (which is
`undefined` in JavaScript and propagates as NaN) can be modelled faithfully.
Calls to `Math.random()` are modelled by a stream `rand : Nat → ℚ` of draws
in [0,1), indexed in call order.
-/

namespace Embers

/-- A JavaScript number: either an actual (rational-valued) number or NaN. -/
inductive JSNum where
  | num (q : ℚ)
  | nan
  deriving DecidableEq, Repr

/-- A JSON/JavaScript value as it appears in log-record fields. -/
inductive JSValue where
  | jnum (x : JSNum)
  | jstr (s : String)
  | jbool (b : Bool)
  | jundef
  deriving DecidableEq, Repr

/-- Winston severity levels used by the server. -/
inductive Level where
  | info
  | warn
  | error
  deriving DecidableEq, Repr

/-- A structured log record: severity, message, and key/value fields. -/
structure LogRecord where
  level : Level
  message : String
  fields : List (String × JSValue)
  deriving DecidableEq, Repr

/-- Division of a JavaScript number by a nonzero rational constant;
NaN propagates (`undefined / 3` is NaN). -/
def JSNum.divQ (x : JSNum) (d : ℚ) : JSNum :=
  match x with
  | .num q => .num (q / d)
  | .nan => .nan

/-- The `Math.ceil` function: NaN propagates, numbers round up to an integer. -/
def JSNum.jceil (x : JSNum) : JSNum :=
  match x with
  | .num q => .num ((⌈q⌉ : ℤ) : ℚ)
  | .nan => .nan

/-- Number of iterations of `for (let i = 0; i < n; i++)` for a JS bound `n`:
the number of naturals strictly below `n`.  Any comparison with NaN is false,
so a NaN bound yields zero iterations. -/
def JSNum.loopCount (x : JSNum) : ℕ :=
  match x with
  | .num q => (⌈q⌉ : ℤ).toNat
  | .nan => 0

/-- Index selection `arr[Math.floor(r * arr.length)]` for a random draw `r`. -/
def selIdx (r : ℚ) (len : ℕ) : ℕ :=
  (⌊r * (len : ℚ)⌋).toNat

/-- Identity of a Prometheus instrument: metric name plus label set. -/
structure InstrKey where
  name : String
  labels : List (String × String)
  deriving DecidableEq, Repr

/-- One mutation of the in-memory instrument registry. -/
inductive Op where
  | setGauge (k : InstrKey) (v : ℚ)
  | incCounter (k : InstrKey) (a : ℚ)
  | observeHistogram (k : InstrKey) (v : ℚ)
  deriving DecidableEq, Repr

/-- The process-wide prom-client registry: last-set gauge values, accumulated
counter totals, and the list of histogram observations, per instrument key. -/
structure Registry where
  gauges : InstrKey → ℚ
  counters : InstrKey → ℚ
  hists : InstrKey → List ℚ

/-- Apply one instrument mutation to the registry. -/
def applyOp (r : Registry) : Op → Registry
  | .setGauge k v =>
      { r with gauges := fun j => if j = k then v else r.gauges j }
  | .incCounter k a =>
      { r with counters := fun j => if j = k then r.counters k + a else r.counters j }
  | .observeHistogram k v =>
      { r with hists := fun j => if j = k then r.hists k ++ [v] else r.hists j }

/-- Apply a list of mutations left to right. -/
def applyOps (r : Registry) (ops : List Op) : Registry :=
  ops.foldl applyOp r

/-- The value a `setGauge` op writes to key `k`, if it is one. -/
def setOf (k : InstrKey) : Op → Option ℚ
  | .setGauge j v => if j = k then some v else none
  | _ => none

/-- The value of the last `setGauge` to key `k` in an op list, if any. -/
def lastSet : List Op → InstrKey → Option ℚ
  | [], _ => none
  | op :: ops, k =>
      match lastSet ops k with
      | some v => some v
      | none => setOf k op

/- Instrument keys declared at process start (src/server.js lines 28-64). -/

def flameCountKey : InstrKey := ⟨"embers_flame_count", []⟩

def renderDurationKey : InstrKey := ⟨"embers_render_duration_ms", []⟩

/-- Bucket boundaries of the render-duration histogram (src/server.js line 37). -/
def renderDurationBuckets : List ℚ := [1, 5, 10, 25, 50, 100, 250, 500]

def buttonClicksKey (action : String) : InstrKey :=
  ⟨"embers_button_clicks_total", [("button_type", action)]⟩

def temperatureKey : InstrKey := ⟨"embers_temperature_celsius", []⟩

def sparksKey : InstrKey := ⟨"embers_sparks_emitted_total", []⟩

/-! ### POST /api/flames (src/server.js lines 78-100) -/

/-- Request body of POST /api/flames: `{ count, action? }`.  `action` is
`none` when the field is absent from the JSON body. -/
structure FlamesRequest where
  count : ℚ
  action : Option String
  deriving DecidableEq, Repr

/-- JavaScript truthiness of the `action` field: `undefined` and the empty
string are falsy, every other string is truthy. -/
def truthyStr : Option String → Bool
  | none => false
  | some s => !(s = "")

/-- The `action` field as it is spread into the log record: absent fields log
as `undefined`. -/
def actionValue : Option String → JSValue
  | none => .jundef
  | some s => .jstr s

/-- The `buttonClicks.inc({button_type: action})` branch, guarded by
`if (action)`. -/
def clickOps : Option String → List Op
  | none => []
  | some s => if s = "" then [] else [Op.incCounter (buttonClicksKey s) 1]

/-- Response of POST /api/flames: HTTP status plus `{success, count}`. -/
structure FlamesResponse where
  status : ℕ
  success : Bool
  count : ℚ
  deriving DecidableEq, Repr

/-- Everything one POST /api/flames call produces. -/
structure FlamesOutput where
  ops : List Op
  logs : List LogRecord
  response : FlamesResponse
  deriving Repr

/-- The POST /api/flames handler.  `r1` is the `Math.random()` draw for the
temperature gauge, `r2` the draw for the sparks counter, `ts` the ISO
timestamp string. -/
def flamesHandler (req : FlamesRequest) (r1 r2 : ℚ) (ts : String) : FlamesOutput :=
  { ops := [Op.setGauge flameCountKey req.count]
        ++ clickOps req.action
        ++ [Op.setGauge temperatureKey (800 + r1 * 400),
            Op.incCounter sparksKey ((⌊r2 * 10⌋ : ℤ) + req.count)]
    logs := [{ level := .info
               message := "Flame count updated"
               fields := [("flame_count", .jnum (.num req.count)),
                          ("action", actionValue req.action),
                          ("timestamp", .jstr ts),
                          ("user_action", .jbool true)] }]
    response := { status := 200, success := true, count := req.count } }

/-! ### POST /api/render (src/server.js lines 103-122) -/

/-- Severity choice of the render loop: warn when the draw exceeds 0.8, else info. -/
def renderLevel (r : ℚ) : Level :=
  if (0.8 : ℚ) < r then .warn else .info

/-- Response of POST /api/render: HTTP status plus `{success}`. -/
structure RenderResponse where
  status : ℕ
  success : Bool
  deriving DecidableEq, Repr

/-- Everything one POST /api/render call produces. -/
structure RenderOutput where
  ops : List Op
  logs : List LogRecord
  response : RenderResponse
  deriving Repr

/-- The POST /api/render handler.  `rand i` is the `Math.random()` draw of
loop iteration `i`, `ts i` its ISO timestamp, and `nowMs i` its `Date.now()`
value in milliseconds. -/
def renderHandler (duration : ℚ) (flameCount : JSNum) (rand : ℕ → ℚ)
    (ts : ℕ → String) (nowMs : ℕ → ℤ) : RenderOutput :=
  { ops := [Op.observeHistogram renderDurationKey duration]
    logs := (List.range ((flameCount.divQ 5).jceil.loopCount)).map fun i =>
      { level := renderLevel (rand i)
        message := "Flame rendered"
        fields := [("flame_index", .jnum (.num i)),
                   ("duration_ms", .jnum (.num duration)),
                   ("total_flames", .jnum flameCount),
                   ("timestamp", .jstr (ts i)),
                   ("render_cycle", .jnum (.num ((⌊((nowMs i : ℚ)) / 1000⌋ : ℤ) : ℚ)))] }
    response := { status := 200, success := true } }

/-! ### POST /api/logs (src/server.js lines 125-153) -/

/-- The three candidate severities (src/server.js line 129). -/
def logTypes : List Level := [.info, .warn, .error]

/-- The eight fixed flavor-text messages (src/server.js lines 130-139). -/
def logMessages : List String :=
  ["Flame particle physics calculated",
   "Heat dissipation computed",
   "Oxygen consumption measured",
   "Ember glow intensity adjusted",
   "Flame color spectrum updated",
   "Combustion reaction simulated",
   "Thermal dynamics processed",
   "Flame turbulence calculated"]

/-- Response of POST /api/logs: HTTP status plus `{success, logsGenerated}`. -/
structure LogsResponse where
  status : ℕ
  success : Bool
  logsGenerated : JSNum
  deriving DecidableEq, Repr

/-- Everything one POST /api/logs call produces. -/
structure LogsOutput where
  logs : List LogRecord
  response : LogsResponse
  deriving Repr

/-- The POST /api/logs handler.  Loop iteration `i` consumes the draws
`rand (3*i)` (level), `rand (3*i+1)` (message) and `rand (3*i+2)`
(`random_value`), and `ts i` is its ISO timestamp. -/
def logsHandler (flameCount : JSNum) (rand : ℕ → ℚ) (ts : ℕ → String) : LogsOutput :=
  let numLogs := (flameCount.divQ 3).jceil
  { logs := (List.range numLogs.loopCount).map fun i =>
      { level := logTypes.getD (selIdx (rand (3 * i)) logTypes.length) .info
        message := logMessages.getD (selIdx (rand (3 * i + 1)) logMessages.length) ""
        fields := [("flame_count", .jnum flameCount),
                   ("random_value", .jnum (.num (rand (3 * i + 2) * 100))),
                   ("timestamp", .jstr (ts i))] }
    response := { status := 200, success := true, logsGenerated := numLogs } }

/-! ### GET /health (src/server.js lines 162-168) -/

/-- Response of GET /health. -/
structure HealthResponse where
  status : String
  uptime : ℚ
  deriving DecidableEq, Repr

/-- The GET /health handler: `startMs` is the `Date.now()` recorded at process
start, `nowMs` the one at request time. -/
def healthHandler (startMs nowMs : ℚ) : HealthResponse :=
  { status := "healthy", uptime := (nowMs - startMs) / 1000 }

/-! ### Client driver (src/public/flames.js) -/

/-- A user-visible event handled by the client driver. -/
inductive UserEvent where
  | clickIncrease
  | clickDecrease
  | keyPlus
  | keyMinus
  | resize
  deriving DecidableEq, Repr

/-- An HTTP request the client driver can send to the server. -/
inductive ClientRequest where
  | loadChange (count : ℤ) (action : String)
  | renderSample (duration : ℚ) (flameCount : ℤ)
  | periodicLog (flameCount : ℤ)
  deriving DecidableEq, Repr

/-- Client driver state: the authoritative load level (`flameCount`, src line 8)
and the size of the `flames` particle-layout array rebuilt by `initFlames`. -/
structure ClientState where
  flameCount : ℤ
  flames : ℕ
  deriving DecidableEq, Repr

/-- The initial client state: `flameCount = 10` and `initFlames()` has built
one `Flame` object per unit of load. -/
def initialClientState : ClientState := { flameCount := 10, flames := 10 }

/-- The increase-button handler (src/public/flames.js lines 194-201):
below the cap of 500, add 5, rebuild the layout, and send one load-change. -/
def clickIncreaseStep (s : ClientState) : ClientState × List ClientRequest :=
  if s.flameCount < 500 then
    ({ flameCount := s.flameCount + 5, flames := (s.flameCount + 5).toNat },
     [ClientRequest.loadChange (s.flameCount + 5) "increase"])
  else (s, [])

/-- The decrease-button handler (src/public/flames.js lines 203-210):
above the floor of 5, subtract 5, rebuild the layout, and send one
load-change. -/
def clickDecreaseStep (s : ClientState) : ClientState × List ClientRequest :=
  if 5 < s.flameCount then
    ({ flameCount := s.flameCount - 5, flames := (s.flameCount - 5).toNat },
     [ClientRequest.loadChange (s.flameCount - 5) "decrease"])
  else (s, [])

/-- One client-driver step.  The keyboard handler (src lines 220-226) clicks
the matching button; the resize handler (src lines 213-217) only resizes the
canvas and calls `initFlames()`, which sends no HTTP request. -/
def clientStep (s : ClientState) : UserEvent → ClientState × List ClientRequest
  | .clickIncrease => clickIncreaseStep s
  | .keyPlus => clickIncreaseStep s
  | .clickDecrease => clickDecreaseStep s
  | .keyMinus => clickDecreaseStep s
  | .resize => ({ s with flames := s.flameCount.toNat }, [])

/-- Run the client driver over a list of user events. -/
def runClient (s : ClientState) (es : List UserEvent) : ClientState :=
  es.foldl (fun t e => (clientStep t e).1) s

/-- Invariant of the client load level: within [5,500] and a multiple of 5. -/
def LoadInv (c : ℤ) : Prop :=
  5 ≤ c ∧ c ≤ 500 ∧ c % 5 = 0

instance (c : ℤ) : Decidable (LoadInv c) := by
  unfold LoadInv
  infer_instance

/-- The gauge value GET /metrics (src/server.js lines 156-159) reports for an
instrument key: the metrics text is rendered from the current registry state,
so a gauge scrapes as its current registry entry. -/
def scrapeGauge (reg : Registry) (k : InstrKey) : ℚ :=
  reg.gauges k

/-- One recorded POST /api/flames call: the request plus the random draws and
timestamp consumed while handling it. -/
structure FlamesCall where
  req : FlamesRequest
  r1 : ℚ
  r2 : ℚ
  ts : String

/-- Registry effect of handling a sequence of POST /api/flames calls in
arrival order. -/
def flamesSeq (reg : Registry) (cs : List FlamesCall) : Registry :=
  cs.foldl (fun r c => applyOps r (flamesHandler c.req c.r1 c.r2 c.ts).ops) reg

/-- Default log record used as the `getD` fallback when indexing log lists. -/
def emptyLog : LogRecord :=
  { level := .info, message := "", fields := [] }

/-- The registry at process start: every gauge and counter at zero and no
histogram observations. -/
def emptyRegistry : Registry :=
  { gauges := fun _ => 0, counters := fun _ => 0, hists := fun _ => [] }

/-! ### Helper lemmas -/

theorem getD_range_map {α : Type} (n i : ℕ) (f : ℕ → α) (d : α) (h : i < n) :
    ((List.range n).map f).getD i d = f i := by
  simp [List.getD_eq_getElem?_getD, List.getElem?_map, List.getElem?_range, h]

theorem selIdx_lt (r : ℚ) (len : ℕ) (h1 : r < 1) (hlen : 0 < len) :
    selIdx r len < len := by
  have hlenQ : (0 : ℚ) < (len : ℚ) := by exact_mod_cast hlen
  have hmul : r * (len : ℚ) < (len : ℚ) := by
    calc r * (len : ℚ) < 1 * (len : ℚ) := by
          exact mul_lt_mul_of_pos_right h1 hlenQ
      _ = (len : ℚ) := one_mul _
  have hfl : ⌊r * (len : ℚ)⌋ < (len : ℤ) := by
    rw [Int.floor_lt]
    exact_mod_cast hmul
  unfold selIdx
  omega

theorem selIdx_eq_iff (r : ℚ) (len k : ℕ) (hk : k < len) :
    (0 ≤ r ∧ r < 1 ∧ selIdx r len = k) ↔
      ((k : ℚ) / (len : ℚ) ≤ r ∧ r < ((k : ℚ) + 1) / (len : ℚ)) := by
  have hlen : 0 < len := by omega
  have hlenQ : (0 : ℚ) < (len : ℚ) := by exact_mod_cast hlen
  constructor
  · rintro ⟨h0, _, hsel⟩
    have hnn : (0 : ℤ) ≤ ⌊r * (len : ℚ)⌋ := Int.floor_nonneg.mpr (by positivity)
    have hfl : ⌊r * (len : ℚ)⌋ = (k : ℤ) := by
      unfold selIdx at hsel
      omega
    have h2 := Int.floor_eq_iff.mp hfl
    constructor
    · rw [div_le_iff₀ hlenQ]
      exact_mod_cast h2.1
    · rw [lt_div_iff₀ hlenQ]
      exact_mod_cast h2.2
  · rintro ⟨hlo, hhi⟩
    have h0 : 0 ≤ r := le_trans (by positivity) hlo
    have hk1 : (k : ℚ) + 1 ≤ (len : ℚ) := by exact_mod_cast hk
    have h1 : r < 1 := lt_of_lt_of_le hhi (by rw [div_le_one₀ hlenQ]; exact hk1)
    have hfl : ⌊r * (len : ℚ)⌋ = (k : ℤ) := by
      rw [Int.floor_eq_iff]
      refine ⟨?_, ?_⟩
      · push_cast
        exact (div_le_iff₀ hlenQ).mp hlo
      · push_cast
        exact (lt_div_iff₀ hlenQ).mp hhi
    refine ⟨h0, h1, ?_⟩
    unfold selIdx
    omega

theorem applyOps_append (r : Registry) (xs ys : List Op) :
    applyOps r (xs ++ ys) = applyOps (applyOps r xs) ys := by
  unfold applyOps
  exact List.foldl_append _ _ _ _

theorem applyOp_gauges (r : Registry) (op : Op) (k : InstrKey) :
    (applyOp r op).gauges k = (setOf k op).getD (r.gauges k) := by
  cases op with
  | setGauge j v =>
      simp only [applyOp, setOf]
      by_cases h : k = j
      · subst h
        simp
      · rw [if_neg h, if_neg (fun hjk => h hjk.symm)]
        simp
  | incCounter j a => rfl
  | observeHistogram j v => rfl

theorem gauges_applyOps (ops : List Op) (r : Registry) (k : InstrKey) :
    (applyOps r ops).gauges k = ((lastSet ops k).getD (r.gauges k)) := by
  induction ops generalizing r with
  | nil => rfl
  | cons op ops ih =>
      show (applyOps (applyOp r op) ops).gauges k = _
      rw [ih]
      cases hls : lastSet ops k with
      | some v => simp [lastSet, hls]
      | none => simp [lastSet, hls, applyOp_gauges]

theorem counters_applyOp_of_ne (r : Registry) (op : Op) (k : InstrKey)
    (h : ∀ a, op ≠ Op.incCounter k a) :
    (applyOp r op).counters k = r.counters k := by
  cases op with
  | setGauge j v => rfl
  | incCounter j a =>
      simp only [applyOp]
      rw [if_neg]
      intro hkj
      exact h a (by rw [hkj])
  | observeHistogram j v => rfl

theorem counters_applyOp_inc (r : Registry) (k : InstrKey) (a : ℚ) :
    (applyOp r (Op.incCounter k a)).counters k = r.counters k + a := by
  simp [applyOp]

theorem buttonClicksKey_ne_sparksKey (s : String) : buttonClicksKey s ≠ sparksKey := by
  intro h
  have hn : "embers_button_clicks_total" = "embers_sparks_emitted_total" :=
    congrArg InstrKey.name h
  exact absurd hn (by decide)

theorem buttonClicksKey_ne_flameCountKey (s : String) :
    buttonClicksKey s ≠ flameCountKey := by
  intro h
  have hn : "embers_button_clicks_total" = "embers_flame_count" :=
    congrArg InstrKey.name h
  exact absurd hn (by decide)

theorem clickOps_no_set (a : Option String) (k : InstrKey) (op : Op)
    (hmem : op ∈ clickOps a) : setOf k op = none := by
  cases a with
  | none => simp [clickOps] at hmem
  | some s =>
      by_cases hs : s = ""
      · simp [clickOps, hs] at hmem
      · simp [clickOps, hs] at hmem
        subst hmem
        rfl

theorem clickOps_counters (a : Option String) (r : Registry) (k : InstrKey)
    (h : ∀ s, k ≠ buttonClicksKey s) :
    (applyOps r (clickOps a)).counters k = r.counters k := by
  cases a with
  | none => rfl
  | some s =>
      by_cases hs : s = ""
      · simp [clickOps, hs, applyOps]
      · simp only [clickOps, hs, if_false, Bool.false_eq_true]
        show (applyOp r (Op.incCounter (buttonClicksKey s) 1)).counters k = r.counters k
        apply counters_applyOp_of_ne
        intro a hop
        injection hop with h1 h2
        exact h s h1.symm

theorem lastSet_append (xs ys : List Op) (k : InstrKey) :
    lastSet (xs ++ ys) k =
      match lastSet ys k with
      | some v => some v
      | none => lastSet xs k := by
  induction xs with
  | nil => cases hys : lastSet ys k <;> simp [lastSet, hys]
  | cons op xs ih =>
      have h1 : lastSet (op :: (xs ++ ys)) k =
          match lastSet (xs ++ ys) k with
          | some v => some v
          | none => setOf k op := rfl
      have h2 : lastSet (op :: xs) k =
          match lastSet xs k with
          | some v => some v
          | none => setOf k op := rfl
      rw [List.cons_append, h1, ih]
      cases hys : lastSet ys k <;> cases hxs : lastSet xs k <;> simp [h2, hxs]

theorem lastSet_no_set (ops : List Op) (k : InstrKey)
    (h : ∀ op ∈ ops, setOf k op = none) : lastSet ops k = none := by
  induction ops with
  | nil => rfl
  | cons op ops ih =>
      simp only [lastSet, ih fun o ho => h o (List.mem_cons_of_mem _ ho)]
      exact h op (List.mem_cons_self _ _)

/-- Net effect of one POST /api/flames call on the instrument registry. -/
theorem flames_apply (req : FlamesRequest) (r1 r2 : ℚ) (ts : String) (reg : Registry) :
    (applyOps reg (flamesHandler req r1 r2 ts).ops).gauges flameCountKey = req.count ∧
    (applyOps reg (flamesHandler req r1 r2 ts).ops).gauges temperatureKey = 800 + r1 * 400 ∧
    (applyOps reg (flamesHandler req r1 r2 ts).ops).counters sparksKey
      = reg.counters sparksKey + ((⌊r2 * 10⌋ : ℤ) + req.count) ∧
    (∀ s, req.action = some s → s ≠ "" →
      (applyOps reg (flamesHandler req r1 r2 ts).ops).counters (buttonClicksKey s)
        = reg.counters (buttonClicksKey s) + 1) := by
  rcases req with ⟨count, action⟩
  cases action with
  | none =>
      refine ⟨?_, ?_, ?_, ?_⟩ <;>
        simp [flamesHandler, clickOps, applyOps, applyOp, flameCountKey,
          temperatureKey, sparksKey, buttonClicksKey]
  | some s =>
      by_cases hs : s = ""
      · subst hs
        refine ⟨?_, ?_, ?_, ?_⟩ <;>
          simp [flamesHandler, clickOps, applyOps, applyOp, flameCountKey,
            temperatureKey, sparksKey, buttonClicksKey]
      · refine ⟨?_, ?_, ?_, ?_⟩
        · simp [flamesHandler, clickOps, hs, applyOps, applyOp, flameCountKey,
            temperatureKey, sparksKey, buttonClicksKey]
        · simp [flamesHandler, clickOps, hs, applyOps, applyOp, flameCountKey,
            temperatureKey, sparksKey, buttonClicksKey]
        · simp [flamesHandler, clickOps, hs, applyOps, applyOp, flameCountKey,
            temperatureKey, sparksKey, buttonClicksKey]
        · intro t ht hts
          injection ht with hts2
          subst hts2
          simp [flamesHandler, clickOps, hs, applyOps, applyOp, flameCountKey,
            temperatureKey, sparksKey, buttonClicksKey]

theorem flamesSeq_append (reg : Registry) (cs : List FlamesCall) (c : FlamesCall) :
    flamesSeq reg (cs ++ [c])
      = applyOps (flamesSeq reg cs) (flamesHandler c.req c.r1 c.r2 c.ts).ops := by
  unfold flamesSeq
  rw [List.foldl_append]
  rfl

theorem loadInv_step (s : ClientState) (e : UserEvent) (h : LoadInv s.flameCount) :
    LoadInv ((clientStep s e).1).flameCount := by
  unfold LoadInv at *
  cases e <;>
    simp only [clientStep, clickIncreaseStep, clickDecreaseStep] <;>
    first
      | (split <;> simp <;> omega)
      | (simp <;> omega)

theorem loadInv_run (s : ClientState) (es : List UserEvent) (h : LoadInv s.flameCount) :
    LoadInv (runClient s es).flameCount := by
  induction es generalizing s with
  | nil => exact h
  | cons e es ih => exact ih _ (loadInv_step s e h)

/-! ### Claim theorems -/

/-- C1: for every load level `L ≥ 0` received on POST /api/logs, the handler
emits exactly `⌈L/3⌉` log records; record `i` selects its level from the three
severities and its message from the eight fixed flavor texts by uniform index
draws (the draws selecting index `k` form the subinterval `[k/len, (k+1)/len)`
of `[0,1)`, all of equal width) and carries the load, a `random_value` uniform
in `[0,100)`, and a timestamp; the response is success with `logsGenerated`
equal to the emitted count. -/
theorem c1_periodic_log_policy (L : ℚ) (rand : ℕ → ℚ) (ts : ℕ → String)
    (hL : 0 ≤ L) (hrand : ∀ n, 0 ≤ rand n ∧ rand n < 1) :
    (logsHandler (.num L) rand ts).logs.length = (⌈L / 3⌉ : ℤ).toNat
    ∧ (logsHandler (.num L) rand ts).response.status = 200
    ∧ (logsHandler (.num L) rand ts).response.success = true
    ∧ (logsHandler (.num L) rand ts).response.logsGenerated
        = JSNum.num (((logsHandler (.num L) rand ts).logs.length : ℕ) : ℚ)
    ∧ (∀ i, i < (logsHandler (.num L) rand ts).logs.length →
        ((logsHandler (.num L) rand ts).logs.getD i emptyLog).level
            = logTypes.getD (selIdx (rand (3 * i)) 3) .info
        ∧ selIdx (rand (3 * i)) 3 < 3
        ∧ ((logsHandler (.num L) rand ts).logs.getD i emptyLog).message
            = logMessages.getD (selIdx (rand (3 * i + 1)) 8) ""
        ∧ selIdx (rand (3 * i + 1)) 8 < 8
        ∧ ((logsHandler (.num L) rand ts).logs.getD i emptyLog).fields
            = [("flame_count", .jnum (.num L)),
               ("random_value", .jnum (.num (rand (3 * i + 2) * 100))),
               ("timestamp", .jstr (ts i))]
        ∧ 0 ≤ rand (3 * i + 2) * 100 ∧ rand (3 * i + 2) * 100 < 100)
    ∧ (∀ k : ℕ, k < 3 → ∀ r : ℚ,
        (0 ≤ r ∧ r < 1 ∧ selIdx r 3 = k) ↔
          ((k : ℚ) / 3 ≤ r ∧ r < ((k : ℚ) + 1) / 3))
    ∧ (∀ k : ℕ, k < 3 → ((k : ℚ) + 1) / 3 - (k : ℚ) / 3 = 1 / 3)
    ∧ (∀ k : ℕ, k < 8 → ∀ r : ℚ,
        (0 ≤ r ∧ r < 1 ∧ selIdx r 8 = k) ↔
          ((k : ℚ) / 8 ≤ r ∧ r < ((k : ℚ) + 1) / 8))
    ∧ (∀ k : ℕ, k < 8 → ((k : ℚ) + 1) / 8 - (k : ℚ) / 8 = 1 / 8) := by
  have hceil : (0 : ℤ) ≤ ⌈L / 3⌉ := Int.ceil_nonneg (by positivity)
  have hlen : (logsHandler (.num L) rand ts).logs.length = (⌈L / 3⌉ : ℤ).toNat := by
    simp [logsHandler, JSNum.divQ, JSNum.jceil, JSNum.loopCount]
  refine ⟨hlen, rfl, rfl, ?_, ?_, ?_, ?_, ?_, ?_⟩
  · show JSNum.num ((⌈L / 3⌉ : ℤ) : ℚ) = _
    rw [hlen]
    congr 1
    rw [← Int.cast_natCast, Int.toNat_of_nonneg hceil]
  · intro i hi
    rw [hlen] at hi
    have hrec : (logsHandler (.num L) rand ts).logs.getD i emptyLog
        = { level := logTypes.getD (selIdx (rand (3 * i)) logTypes.length) .info
            message := logMessages.getD (selIdx (rand (3 * i + 1)) logMessages.length) ""
            fields := [("flame_count", .jnum (.num L)),
                       ("random_value", .jnum (.num (rand (3 * i + 2) * 100))),
                       ("timestamp", .jstr (ts i))] } := by
      show ((List.range ((((JSNum.num L).divQ 3).jceil).loopCount)).map _).getD i emptyLog = _
      rw [getD_range_map]
      simp [JSNum.divQ, JSNum.jceil, JSNum.loopCount]
      omega
    rw [hrec]
    have h0 := (hrand (3 * i)).1
    have h1 := (hrand (3 * i)).2
    have h2 := (hrand (3 * i + 1)).2
    have h3 := (hrand (3 * i + 2)).1
    have h4 := (hrand (3 * i + 2)).2
    refine ⟨rfl, selIdx_lt _ _ h1 (by norm_num), rfl,
      selIdx_lt _ _ h2 (by norm_num), rfl, by positivity, ?_⟩
    nlinarith
  · intro k hk r
    have h := selIdx_eq_iff r 3 k hk
    simpa using h
  · intro k _
    ring
  · intro k hk r
    have h := selIdx_eq_iff r 8 k hk
    simpa using h
  · intro k _
    ring

/-- Witness for C1 at the concrete loads the spec lists: `L` of 0, 1, 3 and 4
generate 0, 1, 1 and 2 log records. -/
theorem c1_periodic_log_policy_witness :
    (logsHandler (.num 0) (fun _ => 1/2) (fun _ => "t")).logs.length = 0
    ∧ (logsHandler (.num 1) (fun _ => 1/2) (fun _ => "t")).logs.length = 1
    ∧ (logsHandler (.num 3) (fun _ => 1/2) (fun _ => "t")).logs.length = 1
    ∧ (logsHandler (.num 4) (fun _ => 1/2) (fun _ => "t")).logs.length = 2 := by
  have hr : ∀ n : ℕ, 0 ≤ ((1 : ℚ)/2) ∧ ((1 : ℚ)/2) < 1 := fun _ => by norm_num
  refine ⟨?_, ?_, ?_, ?_⟩
  · rw [(c1_periodic_log_policy 0 (fun _ => 1/2) (fun _ => "t") (by norm_num) hr).1]
    norm_num
  · rw [(c1_periodic_log_policy 1 (fun _ => 1/2) (fun _ => "t") (by norm_num) hr).1]
    rw [show ⌈(1 : ℚ)/3⌉ = 1 by rw [Int.ceil_eq_iff] <;> norm_num]
    rfl
  · rw [(c1_periodic_log_policy 3 (fun _ => 1/2) (fun _ => "t") (by norm_num) hr).1]
    rw [show ⌈(3 : ℚ)/3⌉ = 1 by rw [Int.ceil_eq_iff] <;> norm_num]
    rfl
  · rw [(c1_periodic_log_policy 4 (fun _ => 1/2) (fun _ => "t") (by norm_num) hr).1]
    rw [show ⌈(4 : ℚ)/3⌉ = 2 by rw [Int.ceil_eq_iff] <;> norm_num]
    rfl

/-- C2: for every render-sample request with duration `D` and load `L ≥ 0`,
the handler records exactly one histogram observation of `D` against the
bucket boundaries `[1,5,10,25,50,100,250,500]` and emits exactly `⌈L/5⌉` log
records; record `i` is leveled `warn` exactly when its draw falls in the
width-1/5 subinterval `(0.8, 1)` of `[0,1)` and `info` otherwise, and carries
its sequential index, `D`, `L`, and `Date.now()` milliseconds floored to whole
epoch seconds (truncation, for nonnegative clocks). -/
theorem c2_render_sample_policy (D L : ℚ) (rand : ℕ → ℚ) (ts : ℕ → String)
    (nowMs : ℕ → ℤ)
    (hL : 0 ≤ L) (hrand : ∀ n, 0 ≤ rand n ∧ rand n < 1) :
    (renderHandler D (.num L) rand ts nowMs).ops
        = [Op.observeHistogram renderDurationKey D]
    ∧ renderDurationBuckets = [1, 5, 10, 25, 50, 100, 250, 500]
    ∧ (renderHandler D (.num L) rand ts nowMs).logs.length = (⌈L / 5⌉ : ℤ).toNat
    ∧ (renderHandler D (.num L) rand ts nowMs).response.status = 200
    ∧ (renderHandler D (.num L) rand ts nowMs).response.success = true
    ∧ (∀ i, i < (renderHandler D (.num L) rand ts nowMs).logs.length →
        (renderHandler D (.num L) rand ts nowMs).logs.getD i emptyLog
          = { level := renderLevel (rand i)
              message := "Flame rendered"
              fields := [("flame_index", .jnum (.num i)),
                         ("duration_ms", .jnum (.num D)),
                         ("total_flames", .jnum (.num L)),
                         ("timestamp", .jstr (ts i)),
                         ("render_cycle",
                            .jnum (.num ((⌊((nowMs i : ℚ)) / 1000⌋ : ℤ) : ℚ)))] })
    ∧ (∀ r : ℚ, (0 ≤ r ∧ r < 1 ∧ renderLevel r = .warn) ↔ ((0.8 : ℚ) < r ∧ r < 1))
    ∧ (∀ r : ℚ, renderLevel r = .info ∨ renderLevel r = .warn)
    ∧ ((1 : ℚ) - 0.8 = 1 / 5)
    ∧ (∀ m : ℤ, 0 ≤ m → (⌊((m : ℚ)) / 1000⌋ : ℤ) = ((m.toNat / 1000 : ℕ) : ℤ)) := by
  have hlen : (renderHandler D (.num L) rand ts nowMs).logs.length
      = (⌈L / 5⌉ : ℤ).toNat := by
    simp [renderHandler, JSNum.divQ, JSNum.jceil, JSNum.loopCount]
  refine ⟨rfl, rfl, hlen, rfl, rfl, ?_, ?_, ?_, by norm_num, ?_⟩
  · intro i hi
    rw [hlen] at hi
    show ((List.range ((((JSNum.num L).divQ 5).jceil).loopCount)).map _).getD i emptyLog = _
    rw [getD_range_map]
    simp [JSNum.divQ, JSNum.jceil, JSNum.loopCount]
    omega
  · intro r
    unfold renderLevel
    constructor
    · rintro ⟨_, h1, hw⟩
      by_cases h8 : (0.8 : ℚ) < r
      · exact ⟨h8, h1⟩
      · rw [if_neg h8] at hw
        exact absurd hw (by decide)
    · rintro ⟨h8, h1⟩
      refine ⟨le_trans (by norm_num) (le_of_lt h8), h1, ?_⟩
      rw [if_pos h8]
  · intro r
    unfold renderLevel
    by_cases h8 : (0.8 : ℚ) < r
    · right
      rw [if_pos h8]
    · left
      rw [if_neg h8]
  · intro m hm
    have h := Rat.floor_intCast_div_natCast m 1000
    have hc : ((1000 : ℕ) : ℚ) = (1000 : ℚ) := by norm_num
    rw [hc] at h
    rw [h]
    omega

/-- Witness for C2 at the concrete loads the spec lists: `L=5` emits one log
record, `L=6` emits two, and exactly one histogram observation is recorded. -/
theorem c2_render_sample_policy_witness :
    (renderHandler 7 (.num 5) (fun _ => 1/2) (fun _ => "t") (fun _ => 1700000000000)).logs.length = 1
    ∧ (renderHandler 7 (.num 6) (fun _ => 1/2) (fun _ => "t") (fun _ => 1700000000000)).logs.length = 2
    ∧ (renderHandler 7 (.num 6) (fun _ => 1/2) (fun _ => "t") (fun _ => 1700000000000)).ops
        = [Op.observeHistogram renderDurationKey 7] := by
  have hr : ∀ n : ℕ, 0 ≤ ((1 : ℚ)/2) ∧ ((1 : ℚ)/2) < 1 := fun _ => by norm_num
  refine ⟨?_, ?_, ?_⟩
  · rw [(c2_render_sample_policy 7 5 (fun _ => 1/2) (fun _ => "t")
      (fun _ => 1700000000000) (by norm_num) hr).2.2.1]
    rw [show ⌈(5 : ℚ)/5⌉ = 1 by rw [Int.ceil_eq_iff] <;> norm_num]
    rfl
  · rw [(c2_render_sample_policy 7 6 (fun _ => 1/2) (fun _ => "t")
      (fun _ => 1700000000000) (by norm_num) hr).2.2.1]
    rw [show ⌈(6 : ℚ)/5⌉ = 2 by rw [Int.ceil_eq_iff] <;> norm_num]
    rfl
  · exact (c2_render_sample_policy 7 6 (fun _ => 1/2) (fun _ => "t")
      (fun _ => 1700000000000) (by norm_num) hr).1

/-- C3: every load-change request increments the sparks counter by
`⌊uniform(0,10)⌋ + L` — an amount at least `L`, the random addend being the
floor of a draw in `[0,10)` and hence nonnegative — and sets the temperature
gauge to a value in `[800, 1200)`. -/
theorem c3_load_change_metrics (count : ℚ) (action : Option String)
    (r1 r2 : ℚ) (ts : String) (reg : Registry)
    (h1 : 0 ≤ r1) (h2 : r1 < 1) (h3 : 0 ≤ r2) (h4 : r2 < 1) :
    (applyOps reg (flamesHandler ⟨count, action⟩ r1 r2 ts).ops).counters sparksKey
        = reg.counters sparksKey + (((⌊r2 * 10⌋ : ℤ) : ℚ) + count)
    ∧ (0 : ℚ) ≤ ((⌊r2 * 10⌋ : ℤ) : ℚ)
    ∧ 0 ≤ r2 * 10 ∧ r2 * 10 < 10
    ∧ reg.counters sparksKey + count
        ≤ (applyOps reg (flamesHandler ⟨count, action⟩ r1 r2 ts).ops).counters sparksKey
    ∧ (applyOps reg (flamesHandler ⟨count, action⟩ r1 r2 ts).ops).gauges temperatureKey
        = 800 + r1 * 400
    ∧ (800 : ℚ) ≤ 800 + r1 * 400 ∧ 800 + r1 * 400 < 1200 := by
  have ha := flames_apply ⟨count, action⟩ r1 r2 ts reg
  have hfl : (0 : ℚ) ≤ ((⌊r2 * 10⌋ : ℤ) : ℚ) := by
    have : (0 : ℤ) ≤ ⌊r2 * 10⌋ := Int.floor_nonneg.mpr (by positivity)
    exact_mod_cast this
  refine ⟨ha.2.2.1, hfl, by positivity, by nlinarith, ?_, ha.2.1, by linarith,
    by nlinarith⟩
  rw [ha.2.2.1]
  linarith

/-- Witness for C3 at a concrete request, draws, and starting registry. -/
theorem c3_load_change_metrics_witness :
    (applyOps emptyRegistry (flamesHandler ⟨15, none⟩ (1/2) (1/2) "t").ops).counters sparksKey
        = emptyRegistry.counters sparksKey + (((⌊(1/2 : ℚ) * 10⌋ : ℤ) : ℚ) + 15)
    ∧ (800 : ℚ) ≤ 800 + (1/2 : ℚ) * 400 ∧ 800 + (1/2 : ℚ) * 400 < 1200 := by
  have h := c3_load_change_metrics 15 none (1/2) (1/2) "t" emptyRegistry
    (by norm_num) (by norm_num) (by norm_num) (by norm_num)
  exact ⟨h.1, h.2.2.2.2.2.2⟩

/-- C5: POST /api/flames with body `{count:15, action:"increase"}` responds
`{success:true, count:15}` (HTTP 200), sets the embers_flame_count gauge to
15, increments the embers_button_clicks_total counter labeled
`button_type="increase"` by exactly 1, and emits exactly one info-level log
record carrying the load 15, the action, and `user_action: true`. -/
theorem c5_flames_scenario (r1 r2 : ℚ) (ts : String) (reg : Registry) :
    (flamesHandler ⟨15, some "increase"⟩ r1 r2 ts).response
        = { status := 200, success := true, count := 15 }
    ∧ (applyOps reg (flamesHandler ⟨15, some "increase"⟩ r1 r2 ts).ops).gauges
        flameCountKey = 15
    ∧ (applyOps reg (flamesHandler ⟨15, some "increase"⟩ r1 r2 ts).ops).counters
        (buttonClicksKey "increase")
        = reg.counters (buttonClicksKey "increase") + 1
    ∧ (flamesHandler ⟨15, some "increase"⟩ r1 r2 ts).logs
        = [{ level := .info
             message := "Flame count updated"
             fields := [("flame_count", .jnum (.num 15)),
                        ("action", .jstr "increase"),
                        ("timestamp", .jstr ts),
                        ("user_action", .jbool true)] }] := by
  have ha := flames_apply ⟨15, some "increase"⟩ r1 r2 ts reg
  exact ⟨rfl, ha.1, ha.2.2.2 "increase" rfl (by decide), rfl⟩

/-- C10: in the /api/flames handler the button-click counter increment is
present exactly when the `action` field is truthy; when `action` is absent or
the empty string the op list is just the gauge set, the temperature set and
the sparks increment, while the single info log (still carrying the action
field) and the success response happen regardless. -/
theorem c10_action_truthiness (count : ℚ) (action : Option String)
    (r1 r2 : ℚ) (ts : String) :
    (truthyStr action = true →
        ∃ s, action = some s ∧
          (flamesHandler ⟨count, action⟩ r1 r2 ts).ops
            = [Op.setGauge flameCountKey count,
               Op.incCounter (buttonClicksKey s) 1,
               Op.setGauge temperatureKey (800 + r1 * 400),
               Op.incCounter sparksKey (((⌊r2 * 10⌋ : ℤ) : ℚ) + count)])
    ∧ (truthyStr action = false →
        (flamesHandler ⟨count, action⟩ r1 r2 ts).ops
          = [Op.setGauge flameCountKey count,
             Op.setGauge temperatureKey (800 + r1 * 400),
             Op.incCounter sparksKey (((⌊r2 * 10⌋ : ℤ) : ℚ) + count)])
    ∧ (∀ k a, Op.incCounter k a ∈ (flamesHandler ⟨count, action⟩ r1 r2 ts).ops →
        k.name = "embers_button_clicks_total" → truthyStr action = true)
    ∧ (flamesHandler ⟨count, action⟩ r1 r2 ts).logs
        = [{ level := .info
             message := "Flame count updated"
             fields := [("flame_count", .jnum (.num count)),
                        ("action", actionValue action),
                        ("timestamp", .jstr ts),
                        ("user_action", .jbool true)] }]
    ∧ (flamesHandler ⟨count, action⟩ r1 r2 ts).response
        = { status := 200, success := true, count := count } := by
  rcases action with _ | s
  · refine ⟨?_, fun _ => rfl, ?_, rfl, rfl⟩
    · intro h
      exact absurd h (by decide)
    · intro k a hmem hname
      simp [flamesHandler, clickOps] at hmem
      rcases hmem with ⟨hk, _⟩
      rw [hk] at hname
      exact absurd hname (by decide)
  · by_cases hs : s = ""
    · subst hs
      refine ⟨?_, fun _ => rfl, ?_, rfl, rfl⟩
      · intro h
        exact absurd h (by decide)
      · intro k a hmem hname
        simp [flamesHandler, clickOps] at hmem
        rcases hmem with ⟨hk, _⟩
        rw [hk] at hname
        exact absurd hname (by decide)
    · refine ⟨?_, ?_, ?_, rfl, rfl⟩
      · intro _
        refine ⟨s, rfl, ?_⟩
        simp [flamesHandler, clickOps, hs]
      · intro h
        simp [truthyStr, hs] at h
      · intro _ _ _ _
        simp [truthyStr, hs]

/-- Witness for C10 at the concrete falsy action `""`: no button-click
increment among the ops. -/
theorem c10_action_truthiness_witness :
    (flamesHandler ⟨7, some ""⟩ 0 0 "t").ops
      = [Op.setGauge flameCountKey 7,
         Op.setGauge temperatureKey (800 + 0 * 400),
         Op.incCounter sparksKey (((⌊(0 : ℚ) * 10⌋ : ℤ) : ℚ) + 7)] :=
  (c10_action_truthiness 7 (some "") 0 0 "t").2.1 (by decide)

theorem lastSet_flamesOps (req : FlamesRequest) (r1 r2 : ℚ) (ts : String) :
    lastSet (flamesHandler req r1 r2 ts).ops flameCountKey = some req.count := by
  show lastSet ([Op.setGauge flameCountKey req.count] ++ clickOps req.action
      ++ [Op.setGauge temperatureKey (800 + r1 * 400),
          Op.incCounter sparksKey ((⌊r2 * 10⌋ : ℤ) + req.count)]) flameCountKey = _
  rw [lastSet_append]
  have htail : lastSet [Op.setGauge temperatureKey (800 + r1 * 400),
      Op.incCounter sparksKey ((⌊r2 * 10⌋ : ℤ) + req.count)] flameCountKey = none := by
    simp [lastSet, setOf, temperatureKey, flameCountKey]
  rw [htail]
  rw [lastSet_append]
  have hclick : lastSet (clickOps req.action) flameCountKey = none :=
    lastSet_no_set _ _ fun op hop => clickOps_no_set req.action flameCountKey op hop
  rw [hclick]
  simp [lastSet, setOf]

/-- C6: after any sequence of instrument operations, the metrics scrape
reports for each gauge key exactly the value written by the most recent
setGauge to that key (or the prior value when there is none), regardless of
interleaved operations on other instruments; in particular, after any
nonempty sequence of handled /api/flames calls the embers_flame_count gauge
equals the count of the most recent call. -/
theorem c6_scrape_most_recent_set :
    (∀ (ops : List Op) (reg : Registry) (k : InstrKey),
        scrapeGauge (applyOps reg ops) k = (lastSet ops k).getD (scrapeGauge reg k))
    ∧ (∀ (reg : Registry) (cs : List FlamesCall) (c : FlamesCall),
        scrapeGauge (flamesSeq reg (cs ++ [c])) flameCountKey = c.req.count) := by
  constructor
  · intro ops reg k
    exact gauges_applyOps ops reg k
  · intro reg cs c
    rw [flamesSeq_append]
    show (applyOps (flamesSeq reg cs) (flamesHandler c.req c.r1 c.r2 c.ts).ops).gauges
        flameCountKey = c.req.count
    rw [gauges_applyOps, lastSet_flamesOps]
    rfl

/-- C7: health responses always report status "healthy", and the uptime value
is monotonically non-decreasing across successive calls within one process
lifetime (the wall clock does not go backwards between the two calls). -/
theorem c7_health_uptime_monotone (startMs t1 t2 : ℚ) (h : t1 ≤ t2) :
    (healthHandler startMs t1).status = "healthy"
    ∧ (healthHandler startMs t2).status = "healthy"
    ∧ (healthHandler startMs t1).uptime ≤ (healthHandler startMs t2).uptime := by
  refine ⟨rfl, rfl, ?_⟩
  show (t1 - startMs) / 1000 ≤ (t2 - startMs) / 1000
  linarith

/-- Witness for C7 at concrete clock readings. -/
theorem c7_health_uptime_monotone_witness :
    (healthHandler 0 5000).status = "healthy"
    ∧ (healthHandler 0 9000).status = "healthy"
    ∧ (healthHandler 0 5000).uptime ≤ (healthHandler 0 9000).uptime :=
  c7_health_uptime_monotone 0 5000 9000 (by norm_num)

/-- C8: from the initial client state every reachable load level stays in
`[5,500]`; each user action either changes the load by exactly +5 or -5 and
sends exactly one load-change request, or (at a bound) leaves it unchanged
and sends nothing; and a window resize rebuilds the particle layout while
sending no request at all. -/
theorem c8_client_driver :
    (∀ es : List UserEvent,
        5 ≤ (runClient initialClientState es).flameCount
        ∧ (runClient initialClientState es).flameCount ≤ 500)
    ∧ (∀ (s : ClientState) (e : UserEvent), LoadInv s.flameCount →
        LoadInv ((clientStep s e).1).flameCount
        ∧ ((clientStep s e).1.flameCount = s.flameCount + 5
            ∨ (clientStep s e).1.flameCount = s.flameCount - 5
            ∨ (clientStep s e).1.flameCount = s.flameCount)
        ∧ ((clientStep s e).1.flameCount ≠ s.flameCount →
            ∃ a, (clientStep s e).2
              = [ClientRequest.loadChange ((clientStep s e).1.flameCount) a])
        ∧ ((clientStep s e).1.flameCount = s.flameCount → (clientStep s e).2 = []))
    ∧ (∀ s : ClientState,
        (clientStep s .resize).2 = []
        ∧ (clientStep s .resize).1.flames = s.flameCount.toNat
        ∧ (clientStep s .resize).1.flameCount = s.flameCount) := by
  refine ⟨?_, ?_, fun s => ⟨rfl, rfl, rfl⟩⟩
  · intro es
    have h := loadInv_run initialClientState es (by decide)
    exact ⟨h.1, h.2.1⟩
  · intro s e h
    refine ⟨loadInv_step s e h, ?_, ?_, ?_⟩
    · cases e <;>
        simp only [clientStep, clickIncreaseStep, clickDecreaseStep] <;>
        first
          | (split <;> simp)
          | simp
    · cases e
      case clickIncrease =>
        simp only [clientStep, clickIncreaseStep]
        split
        · intro _
          exact ⟨"increase", rfl⟩
        · intro hne
          exact absurd rfl hne
      case keyPlus =>
        simp only [clientStep, clickIncreaseStep]
        split
        · intro _
          exact ⟨"increase", rfl⟩
        · intro hne
          exact absurd rfl hne
      case clickDecrease =>
        simp only [clientStep, clickDecreaseStep]
        split
        · intro _
          exact ⟨"decrease", rfl⟩
        · intro hne
          exact absurd rfl hne
      case keyMinus =>
        simp only [clientStep, clickDecreaseStep]
        split
        · intro _
          exact ⟨"decrease", rfl⟩
        · intro hne
          exact absurd rfl hne
      case resize =>
        intro hne
        exact absurd rfl hne
    · cases e
      case clickIncrease =>
        simp only [clientStep, clickIncreaseStep]
        split
        · intro heq
          simp at heq
        · intro _
          rfl
      case keyPlus =>
        simp only [clientStep, clickIncreaseStep]
        split
        · intro heq
          simp at heq
        · intro _
          rfl
      case clickDecrease =>
        simp only [clientStep, clickDecreaseStep]
        split
        · intro heq
          simp at heq
        · intro _
          rfl
      case keyMinus =>
        simp only [clientStep, clickDecreaseStep]
        split
        · intro heq
          simp at heq
        · intro _
          rfl
      case resize =>
        intro _
        rfl

/-- Witness for C8: a concrete event run stays within bounds, and one
concrete step from the initial state satisfies the per-step contract. -/
theorem c8_client_driver_witness :
    (5 ≤ (runClient initialClientState
          [.clickIncrease, .keyMinus, .resize]).flameCount
      ∧ (runClient initialClientState
          [.clickIncrease, .keyMinus, .resize]).flameCount ≤ 500)
    ∧ LoadInv ((clientStep initialClientState .clickDecrease).1).flameCount :=
  ⟨c8_client_driver.1 [.clickIncrease, .keyMinus, .resize],
   (c8_client_driver.2.1 initialClientState .clickDecrease (by decide)).1⟩

/-- C9: a POST /api/logs request with a negative flameCount emits zero log
records yet still responds with HTTP 200 and `{success:true, logsGenerated:n}`
where `n = ⌈flameCount/3⌉ ≤ 0` rather than the emitted count; and with a
non-numeric flameCount it also emits nothing while reporting
`logsGenerated = NaN`. -/
theorem c9_logs_invalid_input (rand : ℕ → ℚ) (ts : ℕ → String) :
    (∀ L : ℚ, L < 0 →
        (logsHandler (.num L) rand ts).logs = []
        ∧ (logsHandler (.num L) rand ts).response
            = { status := 200, success := true,
                logsGenerated := .num ((⌈L / 3⌉ : ℤ) : ℚ) }
        ∧ (⌈L / 3⌉ : ℤ) ≤ 0)
    ∧ ((logsHandler .nan rand ts).logs = []
        ∧ (logsHandler .nan rand ts).response
            = { status := 200, success := true, logsGenerated := .nan }) := by
  refine ⟨?_, rfl, rfl⟩
  intro L hL
  have hc : (⌈L / 3⌉ : ℤ) ≤ 0 := by
    rw [show ((0 : ℤ)) = ⌈(0 : ℚ)⌉ from by simp]
    apply Int.ceil_le_ceil
    linarith
  refine ⟨?_, rfl, hc⟩
  simp [logsHandler, JSNum.divQ, JSNum.jceil, JSNum.loopCount]
  omega

/-- Witness for C9 at flameCount -7 (and missing flameCount). -/
theorem c9_logs_invalid_input_witness :
    (logsHandler (.num (-7)) (fun _ => 0) (fun _ => "t")).logs = []
    ∧ (logsHandler .nan (fun _ => 0) (fun _ => "t")).logs = [] := by
  have h := c9_logs_invalid_input (fun _ => 0) (fun _ => "t")
  exact ⟨(h.1 (-7) (by norm_num)).1, h.2.1⟩

/-- C4 counterexample: a POST /api/logs request whose body is missing
`flameCount` (the field reads as undefined, whose arithmetic is NaN) is
answered with HTTP 200 success, not a client-error (4xx) status, refuting the
claim that malformed or missing fields yield a client-error response. -/
theorem c4_counterexample :
    (logsHandler .nan (fun _ => 0) (fun _ => "t")).response.status = 200
    ∧ ¬(400 ≤ (logsHandler .nan (fun _ => 0) (fun _ => "t")).response.status
        ∧ (logsHandler .nan (fun _ => 0) (fun _ => "t")).response.status < 500)
    ∧ (logsHandler .nan (fun _ => 0) (fun _ => "t")).response.success = true := by
  refine ⟨rfl, ?_, rfl⟩
  intro h
  have h400 := h.1
  norm_num [logsHandler] at h400

/-- C4 (amended): the handlers perform no request-field validation; a POST
/api/logs request with a missing or non-numeric flameCount does emit no
telemetry (zero log records), but it is answered with HTTP 200 success rather
than a client-error status. -/
theorem c4_no_validation (rand : ℕ → ℚ) (ts : ℕ → String) :
    (logsHandler .nan rand ts).logs = []
    ∧ (logsHandler .nan rand ts).response.status = 200
    ∧ (logsHandler .nan rand ts).response.success = true :=
  ⟨rfl, rfl, rfl⟩

end Embers
